import Mathlib

/-!
Verification of the vga16fb renderer plugin (plugin.c).

The development shallowly embeds the palette quantizer
(argb32_pixel_value_to_color_index), the planar mask builder and register
emission loops of flush_area, the flush engine (flush_head), and the
activation path (activate / ply_renderer_head_redraw).  Machine integers
are modelled as Nat; hardware register writes, device-memory stores,
terminal-mode changes and color-map uploads are recorded in an event
trace.  Collaborator region operations (ply_region_add_rectangle,
ply_region_clear) are not in the source tree and are modelled from the
spec where noted.
-/

namespace Vga16fb

/-- A rectangle, mirroring ply_rectangle_t: origin x, y and width, height. -/
structure Rect where
  x : Nat
  y : Nat
  width : Nat
  height : Nat
deriving DecidableEq, Repr

/-- The palette state of a head: the three 16-entry 16-bit channel arrays
red, green, blue and the count palette_size of slots in use, mirroring the
corresponding fields of ply_renderer_head. -/
structure Head where
  red : List Nat
  green : List Nat
  blue : List Nat
  palette_size : Nat
deriving DecidableEq, Repr

/-- Well-formedness of a head palette: the channel arrays have the fixed C
array length 16 and at most 16 slots are in use.  Every reachable state
satisfies this. -/
def Head.wf (h : Head) : Prop :=
  h.red.length = 16 ∧ h.green.length = 16 ∧ h.blue.length = 16 ∧
    h.palette_size ≤ 16

instance (h : Head) : Decidable h.wf := by
  unfold Head.wf
  exact inferInstance

/-- The head state produced by initialize_head: channel arrays zeroed by
memset and palette_size set to 0. -/
def init_head : Head :=
  { red := List.replicate 16 0, green := List.replicate 16 0,
    blue := List.replicate 16 0, palette_size := 0 }

/-- Observable hardware-facing events emitted by the engine: terminal mode
changes, VGA register writes (vga_enable_set_reset, vga_mode,
vga_data_rotate, vga_map_mask, vga_set_reset, vga_bit_mask), the
FBIOPUTCMAP color-map upload, and the device-memory byte store that ORs 1
into a mapped byte. -/
inductive Ev where
  | setTerminalGraphicsMode
  | setUnbufferedInput
  | vgaEnableSetReset (v : Nat)
  | vgaMode (v : Nat)
  | vgaDataRotate (v : Nat)
  | vgaMapMask (v : Nat)
  | uploadCmap (start len : Nat) (r g b : List Nat)
  | vgaSetReset (c : Nat)
  | vgaBitMask (m : Nat)
  | storeOr1 (off : Nat)
deriving DecidableEq, Repr

/-- Predicate selecting device-memory plane writes (the byte stores). -/
def isStoreEv : Ev → Bool
  | Ev.storeOr1 _ => true
  | _ => false

/-- Predicate selecting color-map uploads. -/
def isUploadEv : Ev → Bool
  | Ev.uploadCmap _ _ _ _ _ => true
  | _ => false

/-- Effect of an event on the mapped device memory (a byte offset to byte
value map): the store at offset off executes star-p or-equals 1; all other
events leave memory unchanged. -/
def applyEv (mem : Nat → Nat) : Ev → (Nat → Nat)
  | Ev.storeOr1 off => fun o => if o = off then mem o ||| 1 else mem o
  | _ => mem

/-- The set_palette function: returns early with no upload when the device
fd is negative or the palette is empty; otherwise issues one FBIOPUTCMAP
upload of entries 0 .. palette_size - 1 of the three channel arrays. -/
def set_palette (device_fd : Int) (h : Head) : List Ev :=
  if device_fd < 0 then []
  else if h.palette_size = 0 then []
  else [Ev.uploadCmap 0 h.palette_size (h.red.take h.palette_size)
          (h.green.take h.palette_size) (h.blue.take h.palette_size)]

/-- The red channel of an argb32 pixel value: (pixel_value >> 16) & 0xff. -/
def pixelRed (pv : Nat) : Nat := (pv >>> 16) % 256

/-- The green channel of an argb32 pixel value: (pixel_value >> 8) & 0xff. -/
def pixelGreen (pv : Nat) : Nat := (pv >>> 8) % 256

/-- The blue channel of an argb32 pixel value: pixel_value & 0xff. -/
def pixelBlue (pv : Nat) : Nat := pv % 256

/-- One channel comparison of the quantizer at precision level shift: the
stored 16-bit value shifted right by 8 + shift equals the 8-bit input
channel shifted right by shift. -/
def chanMatch (stored inp shift : Nat) : Bool :=
  decide (stored >>> (8 + shift) = inp >>> shift)

/-- The slot-i comparison of the quantizer at precision level shift: all
three channels compare equal. -/
def paletteMatch (h : Head) (shift r g b : Nat) (i : Nat) : Bool :=
  chanMatch (h.red.getD i 0) r shift && chanMatch (h.green.getD i 0) g shift
    && chanMatch (h.blue.getD i 0) b shift

/-- Linear scan returning the first index i, counting up from the start
index for fuel steps, with p i true; mirrors the inner for loop over
palette indices. -/
def findFrom (p : Nat → Bool) : Nat → Nat → Option Nat
  | _, 0 => none
  | i, fuel + 1 => if p i then some i else findFrom p (i + 1) fuel

/-- First palette slot in increasing index order matching channels r, g, b
at precision level shift, scanning indices 0 .. palette_size - 1. -/
def findIndex (h : Head) (shift r g b : Nat) : Option Nat :=
  findFrom (paletteMatch h shift r g b) 0 h.palette_size

/-- Slot allocation of the quantizer: stores each 8-bit channel shifted
left by 8 into the 16-bit arrays at index palette_size and increments
palette_size. -/
def addColor (h : Head) (r g b : Nat) : Head :=
  { red := h.red.set h.palette_size (r <<< 8),
    green := h.green.set h.palette_size (g <<< 8),
    blue := h.blue.set h.palette_size (b <<< 8),
    palette_size := h.palette_size + 1 }

/-- One iteration of the outer shift loop of the quantizer: scan existing
slots at this precision level; on a match return its index with the head
unchanged; otherwise, if a free slot remains, allocate it, upload the
palette via set_palette, and return the new index; otherwise fall through
to the next level (none). -/
def classifyLevel (fd : Int) (h : Head) (shift r g b : Nat) :
    Option (Nat × Head × List Ev) :=
  match findIndex h shift r g b with
  | some i => some (i, h, [])
  | none =>
      if h.palette_size < 16 then
        let h2 := addColor h r g b
        some (h.palette_size, h2, set_palette fd h2)
      else none

/-- The quantizer argb32_pixel_value_to_color_index: extract the 8-bit
channels, run the shift loop body at shift 6 and then at shift 7, and if
both levels fall through return palette_size - 1 with the head unchanged.
The result is the returned index, the updated head, and the events emitted
by any set_palette call. -/
def argb32_pixel_value_to_color_index (fd : Int) (h : Head)
    (pixel_value : Nat) : Nat × Head × List Ev :=
  let r := pixelRed pixel_value
  let g := pixelGreen pixel_value
  let b := pixelBlue pixel_value
  match classifyLevel fd h 6 r g b with
  | some res => res
  | none =>
      match classifyLevel fd h 7 r g b with
      | some res => res
      | none => (h.palette_size - 1, h, [])

/-- The head state after classifying a whole sequence of pixel values in
order, threading the palette state through each call. -/
def classifySeq (fd : Int) : Head → List Nat → Head
  | h, [] => h
  | h, p :: ps => classifySeq fd (argb32_pixel_value_to_color_index fd h p).2.1 ps

/-- One iteration of the mask-building x loop of flush_area: fetch the
pixel at (x, y) from the shadow buffer, classify it, and OR the bit
0x80 >> (x % 8) into the mask byte at offset index * row_stride + x / 8.
The state is the head, the mask buffer (byte offset to byte value), and
the accumulated event trace. -/
def markPixel (fd : Int) (stride width y : Nat) (shadow : List Nat)
    (st : Head × (Nat → Nat) × List Ev) (x : Nat) :
    Head × (Nat → Nat) × List Ev :=
  let pixel := shadow.getD (x + y * width) 0
  let res := argb32_pixel_value_to_color_index fd st.1 pixel
  let off := res.1 * stride + x / 8
  (res.2.1,
   fun o => if o = off then st.2.1 o ||| (0x80 >>> (x % 8)) else st.2.1 o,
   st.2.2 ++ res.2.2)

/-- The mask-building loop of flush_area for one row, processing the n
pixels x1, x1 + 1, ..., x1 + n - 1 in increasing order, starting from the
memset-to-zero mask buffer. -/
def buildRow (fd : Int) (stride width y : Nat) (shadow : List Nat)
    (h0 : Head) (x1 : Nat) : Nat → Head × (Nat → Nat) × List Ev
  | 0 => (h0, fun _ => 0, [])
  | n + 1 => markPixel fd stride width y shadow
      (buildRow fd stride width y shadow h0 x1 n) (x1 + n)

/-- The head state after the mask-building loop has processed the first n
pixels of a row. -/
def headAt (fd : Int) (stride width y : Nat) (shadow : List Nat)
    (h0 : Head) (x1 n : Nat) : Head :=
  (buildRow fd stride width y shadow h0 x1 n).1

/-- The slot index the pixel at column x of the row classifies to, at the
moment the left-to-right scan starting at x1 reaches it. -/
def idxAt (fd : Int) (stride width y : Nat) (shadow : List Nat)
    (h0 : Head) (x1 x : Nat) : Nat :=
  (argb32_pixel_value_to_color_index fd
    (headAt fd stride width y shadow h0 x1 (x - x1))
    (shadow.getD (x + y * width) 0)).1

/-- The inner byte loop of the emission phase of flush_area for one plane
c: for each byte offset b in the range, skip it when the mask byte is
zero, otherwise issue vga_set_reset c, vga_bit_mask of the mask byte, and
the store ORing 1 at device offset y * row_stride + b. -/
def emitBytes (mask : Nat → Nat) (stride y c : Nat) :
    Nat → Nat → List Ev
  | _, 0 => []
  | b, n + 1 =>
      (if mask (c * stride + b) = 0 then []
       else [Ev.vgaSetReset c, Ev.vgaBitMask (mask (c * stride + b)),
             Ev.storeOr1 (y * stride + b)]) ++
      emitBytes mask stride y c (b + 1) n

/-- The outer plane loop of the emission phase of flush_area: planes c,
c + 1, ... for fuel iterations, each running the byte loop over the byte
range x1 / 8 .. x2 / 8 inclusive. -/
def emitPlanes (mask : Nat → Nat) (stride y x1 x2 : Nat) :
    Nat → Nat → List Ev
  | _, 0 => []
  | c, n + 1 =>
      emitBytes mask stride y c (x1 / 8) (x2 / 8 + 1 - x1 / 8) ++
      emitPlanes mask stride y x1 x2 (c + 1) n

/-- The emission phase of flush_area for one row: all 16 planes. -/
def emitRow (mask : Nat → Nat) (stride y x1 x2 : Nat) : List Ev :=
  emitPlanes mask stride y x1 x2 0 16

/-- The operations the engine owes one (slot, byte offset) pair, written
following the claim wording: nothing when the mask byte is zero, otherwise
exactly the color-substitution select, the bit-mask select with that mask
byte, and the single store at row offset plus byte offset, in this order.
This is the refinement target compared against the loop translation. -/
def pairOps (mask : Nat → Nat) (stride y : Nat) (c b : Nat) : List Ev :=
  if mask (c * stride + b) = 0 then []
  else [Ev.vgaSetReset c, Ev.vgaBitMask (mask (c * stride + b)),
        Ev.storeOr1 (y * stride + b)]

/-- One full row of flush_area: build the mask for row y, then emit the
register writes and stores for it. -/
def flush_area_row (fd : Int) (stride width : Nat) (shadow : List Nat)
    (h : Head) (y x1 x2 : Nat) : Head × List Ev :=
  let res := buildRow fd stride width y shadow h x1 (x2 - x1)
  (res.1, res.2.2 ++ emitRow res.2.1 stride y x1 x2)

/-- The row loop of flush_area: rows y, y + 1, ... for n iterations,
threading the head state and concatenating the traces. -/
def flushRows (fd : Int) (stride width : Nat) (shadow : List Nat)
    (x1 x2 : Nat) : Head → Nat → Nat → Head × List Ev
  | h, _, 0 => (h, [])
  | h, y, n + 1 =>
      let r1 := flush_area_row fd stride width shadow h y x1 x2
      let rest := flushRows fd stride width shadow x1 x2 r1.1 (y + 1) n
      (rest.1, r1.2 ++ rest.2)

/-- The flush_area function on one rectangle: x range x1 = r.x to
x2 = r.x + r.width, y range r.y to r.y + r.height, exclusive. -/
def flush_area (fd : Int) (stride width : Nat) (shadow : List Nat)
    (h : Head) (r : Rect) : Head × List Ev :=
  flushRows fd stride width shadow r.x (r.x + r.width) h r.y r.height

/-- The rectangle loop of flush_head: flush_area on each damaged
rectangle in list order, threading the head state. -/
def flushRects (fd : Int) (stride width : Nat) (shadow : List Nat) :
    Head → List Rect → Head × List Ev
  | h, [] => (h, [])
  | h, r :: rs =>
      let a := flush_area fd stride width shadow h r
      let rest := flushRects fd stride width shadow a.1 rs
      (rest.1, a.2 ++ rest.2)

/-- Backend state: device fd, activation flag, whether device memory is
mapped, row byte stride, head geometry, the shadow pixel buffer (argb32
data, row-major, width = head_area.width), the damaged-region rectangle
list, and the head palette. -/
structure Backend where
  device_fd : Int
  is_active : Bool
  mapped : Bool
  row_stride : Nat
  head_area : Rect
  shadow : List Nat
  damage : List Rect
  head : Head
deriving DecidableEq, Repr

/-- Modelled from the spec: ply_region_add_rectangle is a collaborator not
in the source tree; it adds a rectangle to the damaged-region set, so the
set afterwards contains the added rectangle. -/
def region_add_rectangle (damage : List Rect) (r : Rect) : List Rect :=
  damage ++ [r]

/-- Modelled from the spec: ply_region_clear is a collaborator not in the
source tree; it empties the damaged-region set. -/
def region_clear (_damage : List Rect) : List Rect := []

/-- The fixed event sequence flush_head issues before any pixel work: the
two terminal calls and the baseline VGA register reset sequence
vga_enable_set_reset 0xf, vga_mode 0, vga_data_rotate 0,
vga_map_mask 0xff. -/
def baselineResetEvs : List Ev :=
  [Ev.setTerminalGraphicsMode, Ev.setUnbufferedInput,
   Ev.vgaEnableSetReset 0xf, Ev.vgaMode 0, Ev.vgaDataRotate 0,
   Ev.vgaMapMask 0xff]

/-- The flush_head function: a no-op when inactive; otherwise terminal
setup and baseline register reset, set_palette, flush_area over the
damaged rectangles in order, and finally ply_region_clear on the damaged
region. -/
def flush_head (s : Backend) : Backend × List Ev :=
  if s.is_active then
    let pal := set_palette s.device_fd s.head
    let res := flushRects s.device_fd s.row_stride s.head_area.width
      s.shadow s.head s.damage
    ({ s with head := res.1, damage := region_clear s.damage },
     baselineResetEvs ++ pal ++ res.2)
  else (s, [])

/-- The ply_renderer_head_redraw function: add the entire head area to the
damaged region, then flush_head. -/
def ply_renderer_head_redraw (s : Backend) : Backend × List Ev :=
  flush_head { s with damage := region_add_rectangle s.damage s.head_area }

/-- The activate function: set is_active, and if device memory is mapped
redraw the whole head. -/
def activate (s : Backend) : Backend × List Ev :=
  let s1 : Backend := { s with is_active := true }
  if s1.mapped then ply_renderer_head_redraw s1 else (s1, [])

/-- A one-slot palette whose slot 0 stores red 0x8000; used as a concrete
state for the quantizer claims. -/
def exHeadOne : Head :=
  { red := (List.replicate 16 0).set 0 0x8000, green := List.replicate 16 0,
    blue := List.replicate 16 0, palette_size := 1 }

/-- A full 16-slot palette of all-zero entries; used as a concrete state
for the fallback claim. -/
def exHeadFull : Head :=
  { red := List.replicate 16 0, green := List.replicate 16 0,
    blue := List.replicate 16 0, palette_size := 16 }

/-- A one-slot palette whose slot 0 stores red 0xFF00. -/
def exHeadRed : Head :=
  { red := (List.replicate 16 0).set 0 0xFF00, green := List.replicate 16 0,
    blue := List.replicate 16 0, palette_size := 1 }

/-- A concrete inactive backend with pending partial damage. -/
def exInactive : Backend :=
  { device_fd := 0, is_active := false, mapped := true, row_stride := 4,
    head_area := { x := 0, y := 0, width := 8, height := 1 },
    shadow := List.replicate 8 0xFF, damage := [{ x := 0, y := 0, width := 2, height := 1 }],
    head := init_head }

/-- A concrete active backend with one damaged full-row rectangle. -/
def exActive : Backend :=
  { device_fd := 0, is_active := true, mapped := true, row_stride := 1,
    head_area := { x := 0, y := 0, width := 8, height := 1 },
    shadow := List.replicate 8 0xFF0000,
    damage := [{ x := 0, y := 0, width := 8, height := 1 }],
    head := init_head }

/-- A concrete active backend with an empty palette and no damage. -/
def exActiveEmptyPalette : Backend :=
  { device_fd := 0, is_active := true, mapped := true, row_stride := 4,
    head_area := { x := 0, y := 0, width := 8, height := 1 },
    shadow := List.replicate 8 0, damage := [], head := init_head }

/-- A concrete active backend with a one-entry palette. -/
def exActivePalette : Backend :=
  { device_fd := 0, is_active := true, mapped := true, row_stride := 1,
    head_area := { x := 0, y := 0, width := 8, height := 1 },
    shadow := List.replicate 8 0xFF0000,
    damage := [{ x := 0, y := 0, width := 8, height := 1 }],
    head := exHeadRed }

/-- A concrete inactive, mapped backend with partial prior damage and a
two-row head. -/
def exPreActivation : Backend :=
  { device_fd := 0, is_active := false, mapped := true, row_stride := 1,
    head_area := { x := 0, y := 0, width := 8, height := 2 },
    shadow := List.replicate 16 0xFF0000,
    damage := [{ x := 0, y := 0, width := 2, height := 1 }],
    head := init_head }

/-! ### Lemmas about the linear palette scan -/

theorem findFrom_eq_some {p : Nat → Bool} :
    ∀ fuel start i, findFrom p start fuel = some i →
      start ≤ i ∧ i < start + fuel ∧ p i = true ∧
        ∀ j, start ≤ j → j < i → p j = false := by
  intro fuel
  induction fuel with
  | zero => intro start i h; simp [findFrom] at h
  | succ n ih =>
      intro start i h
      rw [findFrom] at h
      by_cases hp : p start
      · simp only [hp, if_true, Option.some.injEq] at h
        subst h
        exact ⟨le_refl _, by omega, hp, fun j hj1 hj2 => absurd hj1 (by omega)⟩
      · simp only [hp, if_false] at h
        obtain ⟨h1, h2, h3, h4⟩ := ih (start + 1) i h
        refine ⟨by omega, by omega, h3, ?_⟩
        intro j hj1 hj2
        rcases Nat.eq_or_lt_of_le hj1 with rfl | hlt
        · simpa using hp
        · exact h4 j (by omega) hj2

theorem findFrom_eq_none {p : Nat → Bool} :
    ∀ fuel start, findFrom p start fuel = none →
      ∀ j, start ≤ j → j < start + fuel → p j = false := by
  intro fuel
  induction fuel with
  | zero => intro start _ j hj1 hj2; omega
  | succ n ih =>
      intro start h j hj1 hj2
      rw [findFrom] at h
      by_cases hp : p start
      · simp [hp] at h
      · simp only [hp, if_false] at h
        rcases Nat.eq_or_lt_of_le hj1 with rfl | hlt
        · simpa using hp
        · exact ih (start + 1) h j (by omega) (by omega)

theorem findIndex_eq_some {h : Head} {shift r g b i : Nat}
    (hf : findIndex h shift r g b = some i) :
    i < h.palette_size ∧ paletteMatch h shift r g b i = true ∧
      ∀ j, j < i → paletteMatch h shift r g b j = false := by
  obtain ⟨h1, h2, h3, h4⟩ := findFrom_eq_some _ _ _ hf
  exact ⟨by omega, h3, fun j hj => h4 j (by omega) hj⟩

theorem findIndex_eq_none {h : Head} {shift r g b : Nat}
    (hf : findIndex h shift r g b = none) :
    ∀ j, j < h.palette_size → paletteMatch h shift r g b j = false := by
  intro j hj
  exact findFrom_eq_none _ _ hf j (by omega) (by omega)

/-! ### Case equations for the quantizer -/

theorem classify_eq_match6 (fd : Int) (h : Head) (pv i : Nat)
    (h6 : findIndex h 6 (pixelRed pv) (pixelGreen pv) (pixelBlue pv) = some i) :
    argb32_pixel_value_to_color_index fd h pv = (i, h, []) := by
  unfold argb32_pixel_value_to_color_index
  simp [classifyLevel, h6]

theorem classify_eq_alloc (fd : Int) (h : Head) (pv : Nat)
    (h6 : findIndex h 6 (pixelRed pv) (pixelGreen pv) (pixelBlue pv) = none)
    (hlt : h.palette_size < 16) :
    argb32_pixel_value_to_color_index fd h pv =
      (h.palette_size, addColor h (pixelRed pv) (pixelGreen pv) (pixelBlue pv),
       set_palette fd (addColor h (pixelRed pv) (pixelGreen pv) (pixelBlue pv))) := by
  unfold argb32_pixel_value_to_color_index
  simp [classifyLevel, h6, hlt]

theorem classify_eq_match7 (fd : Int) (h : Head) (pv i : Nat)
    (h6 : findIndex h 6 (pixelRed pv) (pixelGreen pv) (pixelBlue pv) = none)
    (hge : 16 ≤ h.palette_size)
    (h7 : findIndex h 7 (pixelRed pv) (pixelGreen pv) (pixelBlue pv) = some i) :
    argb32_pixel_value_to_color_index fd h pv = (i, h, []) := by
  unfold argb32_pixel_value_to_color_index
  simp [classifyLevel, h6, h7, Nat.not_lt.mpr hge]

theorem classify_eq_fallback (fd : Int) (h : Head) (pv : Nat)
    (h6 : findIndex h 6 (pixelRed pv) (pixelGreen pv) (pixelBlue pv) = none)
    (hge : 16 ≤ h.palette_size)
    (h7 : findIndex h 7 (pixelRed pv) (pixelGreen pv) (pixelBlue pv) = none) :
    argb32_pixel_value_to_color_index fd h pv = (h.palette_size - 1, h, []) := by
  unfold argb32_pixel_value_to_color_index
  simp [classifyLevel, h6, h7, Nat.not_lt.mpr hge]

theorem classify_main_cases (fd : Int) (h : Head) (pv : Nat) :
    (∃ i, i < h.palette_size ∧
        argb32_pixel_value_to_color_index fd h pv = (i, h, [])) ∨
    (h.palette_size < 16 ∧
        argb32_pixel_value_to_color_index fd h pv =
          (h.palette_size,
           addColor h (pixelRed pv) (pixelGreen pv) (pixelBlue pv),
           set_palette fd
             (addColor h (pixelRed pv) (pixelGreen pv) (pixelBlue pv)))) ∨
    (16 ≤ h.palette_size ∧
        argb32_pixel_value_to_color_index fd h pv =
          (h.palette_size - 1, h, [])) := by
  rcases hf6 : findIndex h 6 (pixelRed pv) (pixelGreen pv) (pixelBlue pv) with _ | i
  · by_cases hlt : h.palette_size < 16
    · exact Or.inr (Or.inl ⟨hlt, classify_eq_alloc fd h pv hf6 hlt⟩)
    · rcases hf7 : findIndex h 7 (pixelRed pv) (pixelGreen pv) (pixelBlue pv) with _ | i
      · exact Or.inr (Or.inr ⟨by omega, classify_eq_fallback fd h pv hf6 (by omega) hf7⟩)
      · exact Or.inl ⟨i, (findIndex_eq_some hf7).1, classify_eq_match7 fd h pv i hf6 (by omega) hf7⟩
  · exact Or.inl ⟨i, (findIndex_eq_some hf6).1, classify_eq_match6 fd h pv i hf6⟩

/-! ### Well-formedness preservation -/

theorem addColor_wf {h : Head} (hwf : h.wf) (hlt : h.palette_size < 16)
    (r g b : Nat) : (addColor h r g b).wf := by
  obtain ⟨h1, h2, h3, _⟩ := hwf
  exact ⟨by simp [addColor, h1], by simp [addColor, h2],
    by simp [addColor, h3], by simp [addColor]; omega⟩

theorem classify_wf (fd : Int) (h : Head) (pv : Nat) (hwf : h.wf) :
    (argb32_pixel_value_to_color_index fd h pv).2.1.wf := by
  rcases classify_main_cases fd h pv with ⟨i, _, heq⟩ | ⟨hlt, heq⟩ | ⟨_, heq⟩
  · rw [heq]; exact hwf
  · rw [heq]; exact addColor_wf hwf hlt _ _ _
  · rw [heq]; exact hwf

theorem init_head_wf : init_head.wf := by
  refine ⟨?_, ?_, ?_, ?_⟩ <;> simp [init_head]

theorem classifySeq_wf (fd : Int) (ps : List Nat) :
    ∀ h : Head, h.wf → (classifySeq fd h ps).wf := by
  induction ps with
  | nil => intro h hwf; exact hwf
  | cons p ps ih =>
      intro h hwf
      exact ih _ (classify_wf fd h p hwf)

theorem classify_index_lt (fd : Int) (h : Head) (pv : Nat) (hwf : h.wf) :
    (argb32_pixel_value_to_color_index fd h pv).1 <
      (argb32_pixel_value_to_color_index fd h pv).2.1.palette_size ∧
    (argb32_pixel_value_to_color_index fd h pv).2.1.palette_size ≤ 16 := by
  rcases classify_main_cases fd h pv with ⟨i, hi, heq⟩ | ⟨hlt, heq⟩ | ⟨hge, heq⟩
  · rw [heq]; exact ⟨hi, hwf.2.2.2⟩
  · rw [heq]; exact ⟨by simp [addColor], by simp [addColor]; omega⟩
  · rw [heq]
    refine ⟨by simp; omega, hwf.2.2.2⟩

/-! ### Claims about the palette quantizer -/

/-- C1 (counterexample): the claim says the classifier tries level 6 and
then level 7 and returns the first slot matching at that precision.  On a
palette of one slot whose stored red is 0x8000 and input color 0xC00000,
no slot matches at level 6, slot 0 matches at level 7, yet the code
returns the freshly allocated slot 1 (allocation at level 6 preempts the
level-7 scan while free slots remain). -/
theorem quantizer_skips_level7_when_slots_free :
    let h : Head := { red := (List.replicate 16 0).set 0 0x8000,
                      green := List.replicate 16 0,
                      blue := List.replicate 16 0, palette_size := 1 }
    findIndex h 6 (pixelRed 0xC00000) (pixelGreen 0xC00000)
        (pixelBlue 0xC00000) = none ∧
    findIndex h 7 (pixelRed 0xC00000) (pixelGreen 0xC00000)
        (pixelBlue 0xC00000) = some 0 ∧
    (argb32_pixel_value_to_color_index 0 h 0xC00000).1 = 1 ∧
    (argb32_pixel_value_to_color_index 0 h 0xC00000).2.1.palette_size = 2 := by
  decide

/-- C1 (amended): the classifier scans level 6 first and returns the first
slot, in increasing index order, whose three stored channels shifted right
by 8 + 6 equal the input channels shifted right by 6; the level-7 scan is
reached only when the level-6 scan fails and the palette is full, and then
returns the first slot matching at shift 7; when the level-6 scan fails
and a free slot remains, the classifier instead allocates a new slot.  The
scan-characterization conjuncts state that a returned index is the least
matching index. -/
theorem quantizer_levels_amended (fd : Int) (h : Head) (pv : Nat) :
    (∀ i, findIndex h 6 (pixelRed pv) (pixelGreen pv) (pixelBlue pv) = some i →
        argb32_pixel_value_to_color_index fd h pv = (i, h, [])) ∧
    (findIndex h 6 (pixelRed pv) (pixelGreen pv) (pixelBlue pv) = none →
      h.palette_size < 16 →
        argb32_pixel_value_to_color_index fd h pv =
          (h.palette_size,
           addColor h (pixelRed pv) (pixelGreen pv) (pixelBlue pv),
           set_palette fd
             (addColor h (pixelRed pv) (pixelGreen pv) (pixelBlue pv)))) ∧
    (findIndex h 6 (pixelRed pv) (pixelGreen pv) (pixelBlue pv) = none →
      16 ≤ h.palette_size →
      ∀ i, findIndex h 7 (pixelRed pv) (pixelGreen pv) (pixelBlue pv) = some i →
        argb32_pixel_value_to_color_index fd h pv = (i, h, [])) ∧
    (∀ shift i,
      findIndex h shift (pixelRed pv) (pixelGreen pv) (pixelBlue pv) = some i →
        i < h.palette_size ∧
        paletteMatch h shift (pixelRed pv) (pixelGreen pv) (pixelBlue pv) i
          = true ∧
        ∀ j, j < i →
          paletteMatch h shift (pixelRed pv) (pixelGreen pv) (pixelBlue pv) j
            = false) ∧
    (∀ shift,
      findIndex h shift (pixelRed pv) (pixelGreen pv) (pixelBlue pv) = none →
        ∀ j, j < h.palette_size →
          paletteMatch h shift (pixelRed pv) (pixelGreen pv) (pixelBlue pv) j
            = false) := by
  refine ⟨fun i h6 => classify_eq_match6 fd h pv i h6,
          fun h6 hlt => classify_eq_alloc fd h pv h6 hlt,
          fun h6 hge i h7 => classify_eq_match7 fd h pv i h6 hge h7,
          fun shift i hf => findIndex_eq_some hf,
          fun shift hf => findIndex_eq_none hf⟩

/-- C1 (witness): the amended characterization applied at a concrete
palette and input color. -/
theorem quantizer_levels_amended_witness :
    (∀ i, findIndex init_head 6 (pixelRed 0xABCDEF) (pixelGreen 0xABCDEF)
        (pixelBlue 0xABCDEF) = some i →
        argb32_pixel_value_to_color_index 0 init_head 0xABCDEF =
          (i, init_head, [])) ∧
    (findIndex init_head 6 (pixelRed 0xABCDEF) (pixelGreen 0xABCDEF)
        (pixelBlue 0xABCDEF) = none →
      init_head.palette_size < 16 →
        argb32_pixel_value_to_color_index 0 init_head 0xABCDEF =
          (init_head.palette_size,
           addColor init_head (pixelRed 0xABCDEF) (pixelGreen 0xABCDEF)
             (pixelBlue 0xABCDEF),
           set_palette 0
             (addColor init_head (pixelRed 0xABCDEF) (pixelGreen 0xABCDEF)
               (pixelBlue 0xABCDEF)))) ∧
    (findIndex init_head 6 (pixelRed 0xABCDEF) (pixelGreen 0xABCDEF)
        (pixelBlue 0xABCDEF) = none →
      16 ≤ init_head.palette_size →
      ∀ i, findIndex init_head 7 (pixelRed 0xABCDEF) (pixelGreen 0xABCDEF)
          (pixelBlue 0xABCDEF) = some i →
        argb32_pixel_value_to_color_index 0 init_head 0xABCDEF =
          (i, init_head, [])) ∧
    (∀ shift i,
      findIndex init_head shift (pixelRed 0xABCDEF) (pixelGreen 0xABCDEF)
          (pixelBlue 0xABCDEF) = some i →
        i < init_head.palette_size ∧
        paletteMatch init_head shift (pixelRed 0xABCDEF) (pixelGreen 0xABCDEF)
          (pixelBlue 0xABCDEF) i = true ∧
        ∀ j, j < i →
          paletteMatch init_head shift (pixelRed 0xABCDEF)
            (pixelGreen 0xABCDEF) (pixelBlue 0xABCDEF) j = false) ∧
    (∀ shift,
      findIndex init_head shift (pixelRed 0xABCDEF) (pixelGreen 0xABCDEF)
          (pixelBlue 0xABCDEF) = none →
        ∀ j, j < init_head.palette_size →
          paletteMatch init_head shift (pixelRed 0xABCDEF)
            (pixelGreen 0xABCDEF) (pixelBlue 0xABCDEF) j = false) :=
  quantizer_levels_amended 0 init_head 0xABCDEF

/-- C2: starting from a freshly initialized head, after any sequence of
classification calls the next call keeps the slot count at most 16 and
never decreases it; the count grows by exactly one precisely when a new
slot is allocated while fewer than 16 slots are in use, and then the new
slot holds the input channels shifted left by 8. -/
theorem palette_growth_invariant (fd : Int) (ps : List Nat) (p : Nat) :
    (argb32_pixel_value_to_color_index fd (classifySeq fd init_head ps) p).2.1.palette_size ≤ 16 ∧
    (classifySeq fd init_head ps).palette_size ≤
      (argb32_pixel_value_to_color_index fd (classifySeq fd init_head ps) p).2.1.palette_size ∧
    ((argb32_pixel_value_to_color_index fd (classifySeq fd init_head ps) p).2.1.palette_size =
        (classifySeq fd init_head ps).palette_size ∨
      ((argb32_pixel_value_to_color_index fd (classifySeq fd init_head ps) p).2.1.palette_size =
          (classifySeq fd init_head ps).palette_size + 1 ∧
        (classifySeq fd init_head ps).palette_size < 16 ∧
        (argb32_pixel_value_to_color_index fd (classifySeq fd init_head ps) p).2.1.red.getD
            (classifySeq fd init_head ps).palette_size 0 = pixelRed p <<< 8 ∧
        (argb32_pixel_value_to_color_index fd (classifySeq fd init_head ps) p).2.1.green.getD
            (classifySeq fd init_head ps).palette_size 0 = pixelGreen p <<< 8 ∧
        (argb32_pixel_value_to_color_index fd (classifySeq fd init_head ps) p).2.1.blue.getD
            (classifySeq fd init_head ps).palette_size 0 = pixelBlue p <<< 8)) := by
  have hwf : (classifySeq fd init_head ps).wf := classifySeq_wf fd ps init_head init_head_wf
  set h := classifySeq fd init_head ps with hh
  rcases classify_main_cases fd h p with ⟨i, hi, heq⟩ | ⟨hlt, heq⟩ | ⟨hge, heq⟩
  · rw [heq]
    exact ⟨hwf.2.2.2, le_refl _, Or.inl rfl⟩
  · rw [heq]
    obtain ⟨hr, hg, hb, _⟩ := hwf
    refine ⟨by simp [addColor]; omega, by simp [addColor], Or.inr ⟨by simp [addColor], hlt, ?_, ?_, ?_⟩⟩
    · simp only [addColor, List.getD_eq_getElem?_getD]
      rw [List.getElem?_set_self (by omega)]
      rfl
    · simp only [addColor, List.getD_eq_getElem?_getD]
      rw [List.getElem?_set_self (by omega)]
      rfl
    · simp only [addColor, List.getD_eq_getElem?_getD]
      rw [List.getElem?_set_self (by omega)]
      rfl
  · rw [heq]
    exact ⟨hwf.2.2.2, le_refl _, Or.inl rfl⟩

/-- C3: when the palette already holds 16 entries and the input matches no
slot at level 6 nor at level 7, the classifier returns palette_size - 1 =
15, allocates nothing, leaves the head (palette arrays and palette_size)
unchanged, and emits no events: classification is total and never
fails. -/
theorem palette_full_fallback (fd : Int) (h : Head) (pv : Nat)
    (hsize : h.palette_size = 16)
    (h6 : findIndex h 6 (pixelRed pv) (pixelGreen pv) (pixelBlue pv) = none)
    (h7 : findIndex h 7 (pixelRed pv) (pixelGreen pv) (pixelBlue pv) = none) :
    argb32_pixel_value_to_color_index fd h pv = (15, h, []) := by
  have := classify_eq_fallback fd h pv h6 (by omega) h7
  rw [this, hsize]

/-- C3 (witness): a full palette of 16 black slots and the input 0xFFFFFF,
which matches no slot at either precision level. -/
theorem palette_full_fallback_witness :
    ({ red := List.replicate 16 0, green := List.replicate 16 0,
       blue := List.replicate 16 0, palette_size := 16 } : Head).palette_size = 16 ∧
    findIndex { red := List.replicate 16 0, green := List.replicate 16 0,
                blue := List.replicate 16 0, palette_size := 16 } 6
      (pixelRed 0xFFFFFF) (pixelGreen 0xFFFFFF) (pixelBlue 0xFFFFFF) = none ∧
    findIndex { red := List.replicate 16 0, green := List.replicate 16 0,
                blue := List.replicate 16 0, palette_size := 16 } 7
      (pixelRed 0xFFFFFF) (pixelGreen 0xFFFFFF) (pixelBlue 0xFFFFFF) = none ∧
    argb32_pixel_value_to_color_index 0
      { red := List.replicate 16 0, green := List.replicate 16 0,
        blue := List.replicate 16 0, palette_size := 16 } 0xFFFFFF =
      (15, { red := List.replicate 16 0, green := List.replicate 16 0,
             blue := List.replicate 16 0, palette_size := 16 }, []) :=
  ⟨by decide, by decide, by decide,
   palette_full_fallback 0 _ 0xFFFFFF (by decide) (by decide) (by decide)⟩

/-- C10: on any well-formed palette state the returned index is a valid
slot of the returned state, so it is below palette_size and at most 15; a
call on an empty palette allocates and returns slot 0; hence the mask
offset index * row_stride + x / 8 stays below 16 * row_stride whenever
x / 8 is within the row stride. -/
theorem quantizer_index_safe (fd : Int) (h : Head) (pv : Nat) (hwf : h.wf) :
    (argb32_pixel_value_to_color_index fd h pv).1 <
      (argb32_pixel_value_to_color_index fd h pv).2.1.palette_size ∧
    (argb32_pixel_value_to_color_index fd h pv).2.1.palette_size ≤ 16 ∧
    (argb32_pixel_value_to_color_index fd h pv).1 ≤ 15 ∧
    (h.palette_size = 0 →
      (argb32_pixel_value_to_color_index fd h pv).1 = 0 ∧
      (argb32_pixel_value_to_color_index fd h pv).2.1.palette_size = 1) ∧
    (∀ stride x, x / 8 < stride →
      (argb32_pixel_value_to_color_index fd h pv).1 * stride + x / 8 <
        16 * stride) := by
  obtain ⟨hlt, hle⟩ := classify_index_lt fd h pv hwf
  have hidx : (argb32_pixel_value_to_color_index fd h pv).1 ≤ 15 := by omega
  refine ⟨hlt, hle, hidx, ?_, ?_⟩
  · intro hzero
    rcases classify_main_cases fd h pv with ⟨i, hi, heq⟩ | ⟨_, heq⟩ | ⟨hge, heq⟩
    · omega
    · rw [heq]; simp [addColor, hzero]
    · omega
  · intro stride x hx
    calc (argb32_pixel_value_to_color_index fd h pv).1 * stride + x / 8
        < (argb32_pixel_value_to_color_index fd h pv).1 * stride + stride := by omega
      _ = ((argb32_pixel_value_to_color_index fd h pv).1 + 1) * stride := by ring
      _ ≤ 16 * stride := Nat.mul_le_mul_right stride (by omega)

/-- C10 (witness): the empty palette and the input 0x123456. -/
theorem quantizer_index_safe_witness :
    init_head.wf ∧
    ((argb32_pixel_value_to_color_index 0 init_head 0x123456).1 <
      (argb32_pixel_value_to_color_index 0 init_head 0x123456).2.1.palette_size ∧
    (argb32_pixel_value_to_color_index 0 init_head 0x123456).2.1.palette_size ≤ 16 ∧
    (argb32_pixel_value_to_color_index 0 init_head 0x123456).1 ≤ 15 ∧
    (init_head.palette_size = 0 →
      (argb32_pixel_value_to_color_index 0 init_head 0x123456).1 = 0 ∧
      (argb32_pixel_value_to_color_index 0 init_head 0x123456).2.1.palette_size = 1) ∧
    (∀ stride x, x / 8 < stride →
      (argb32_pixel_value_to_color_index 0 init_head 0x123456).1 * stride + x / 8 <
        16 * stride)) :=
  ⟨by decide, quantizer_index_safe 0 init_head 0x123456 (by decide)⟩

/-! ### Lemmas about the flush engine -/

theorem set_palette_no_store (fd : Int) (h : Head) :
    (set_palette fd h).filter isStoreEv = [] := by
  unfold set_palette
  split_ifs <;> rfl

theorem flush_head_empty_damage (s : Backend) (hact : s.is_active = true)
    (hdam : s.damage = []) :
    flush_head s = (s, baselineResetEvs ++ set_palette s.device_fd s.head) := by
  cases s with
  | mk fd act mp stride area shadow dam hd =>
      simp only at hact hdam
      subst hact
      subst hdam
      unfold flush_head
      simp [flushRects, region_clear]

theorem flushRects_append_last (fd : Int) (stride width : Nat)
    (shadow : List Nat) :
    ∀ (l : List Rect) (h : Head) (r : Rect),
      flushRects fd stride width shadow h (l ++ [r]) =
        ((flush_area fd stride width shadow
            (flushRects fd stride width shadow h l).1 r).1,
         (flushRects fd stride width shadow h l).2 ++
           (flush_area fd stride width shadow
             (flushRects fd stride width shadow h l).1 r).2) := by
  intro l
  induction l with
  | nil =>
      intro h r
      simp [flushRects]
  | cons a l ih =>
      intro h r
      simp only [List.cons_append, flushRects, List.append_eq]
      rw [ih]
      simp [List.append_assoc]

/-! ### Claims about the flush engine -/

/-- C7: when the backend is inactive, flush_head returns immediately: the
state is returned unchanged (in particular the damaged region), and the
event trace is empty, so there are no register writes, no device-memory
stores, no terminal mode change and no palette upload. -/
theorem flush_head_inactive_noop (s : Backend) (hact : s.is_active = false) :
    flush_head s = (s, []) ∧
    (flush_head s).1.damage = s.damage ∧
    (flush_head s).2 = [] := by
  have h1 : flush_head s = (s, []) := by
    unfold flush_head
    simp [hact]
  exact ⟨h1, by rw [h1], by rw [h1]⟩

/-- C7 (witness): a concrete inactive backend. -/
theorem flush_head_inactive_noop_witness :
    exInactive.is_active = false ∧
    (flush_head exInactive = (exInactive, []) ∧
     (flush_head exInactive).1.damage = exInactive.damage ∧
     (flush_head exInactive).2 = []) :=
  ⟨rfl, flush_head_inactive_noop exInactive rfl⟩

/-- C6: an active flush leaves the damaged-region set empty
(ply_region_clear runs after all rectangles), so a second flush_head right
after it, with no intervening pixel changes, processes zero rectangles:
its whole trace is just the terminal and baseline reset events plus the
palette upload, it contains no device-memory store, and the state is
unchanged. -/
theorem flush_damage_idempotent (s : Backend) (hact : s.is_active = true) :
    (flush_head s).1.damage = [] ∧
    flush_head (flush_head s).1 =
      ((flush_head s).1,
       baselineResetEvs ++
         set_palette (flush_head s).1.device_fd (flush_head s).1.head) ∧
    (flush_head (flush_head s).1).2.filter isStoreEv = [] := by
  have h1 : (flush_head s).1.damage = [] := by
    unfold flush_head
    simp [hact, region_clear]
  have h2 : (flush_head s).1.is_active = true := by
    unfold flush_head
    simp [hact]
  have h3 := flush_head_empty_damage _ h2 h1
  refine ⟨h1, h3, ?_⟩
  rw [h3]
  simp only [List.filter_append, set_palette_no_store, List.append_nil]
  rfl

/-- C6 (witness): a concrete active backend with one damaged rectangle. -/
theorem flush_damage_idempotent_witness :
    exActive.is_active = true ∧
    ((flush_head exActive).1.damage = [] ∧
     flush_head (flush_head exActive).1 =
       ((flush_head exActive).1,
        baselineResetEvs ++
          set_palette (flush_head exActive).1.device_fd
            (flush_head exActive).1.head) ∧
     (flush_head (flush_head exActive).1).2.filter isStoreEv = []) :=
  ⟨rfl, flush_damage_idempotent exActive rfl⟩

/-- C8 (counterexample): the claim says every active flush uploads the
palette unconditionally, but set_palette returns early when palette_size
is 0: an active flush on a freshly initialized head issues no color-map
upload at all. -/
theorem flush_without_upload :
    exActiveEmptyPalette.is_active = true ∧
    0 ≤ exActiveEmptyPalette.device_fd ∧
    (flush_head exActiveEmptyPalette).2.filter isUploadEv = [] := by
  decide

/-- C8 (amended): every active flush on an open device with a nonempty
palette uploads the full current palette (entries 0 .. palette_size - 1 of
the three channel arrays) exactly after the terminal setup and baseline
register reset sequence and before any rectangle is processed; when the
palette is empty or the device fd is negative, set_palette skips the
upload. -/
theorem flush_uploads_palette (s : Backend) (hact : s.is_active = true)
    (hfd : 0 ≤ s.device_fd) (hsz : s.head.palette_size ≠ 0) :
    (flush_head s).2 =
      baselineResetEvs ++
      [Ev.uploadCmap 0 s.head.palette_size
         (s.head.red.take s.head.palette_size)
         (s.head.green.take s.head.palette_size)
         (s.head.blue.take s.head.palette_size)] ++
      (flushRects s.device_fd s.row_stride s.head_area.width s.shadow s.head
        s.damage).2 := by
  have hfd2 : ¬s.device_fd < 0 := by omega
  unfold flush_head set_palette
  simp [hact, hfd2, hsz]

/-- C8 (witness): a concrete active backend with a one-entry palette. -/
theorem flush_uploads_palette_witness :
    exActivePalette.is_active = true ∧
    0 ≤ exActivePalette.device_fd ∧
    exActivePalette.head.palette_size ≠ 0 ∧
    (flush_head exActivePalette).2 =
      baselineResetEvs ++
      [Ev.uploadCmap 0 exActivePalette.head.palette_size
         (exActivePalette.head.red.take exActivePalette.head.palette_size)
         (exActivePalette.head.green.take exActivePalette.head.palette_size)
         (exActivePalette.head.blue.take exActivePalette.head.palette_size)] ++
      (flushRects exActivePalette.device_fd exActivePalette.row_stride
        exActivePalette.head_area.width exActivePalette.shadow
        exActivePalette.head exActivePalette.damage).2 :=
  ⟨rfl, by decide, by decide,
   flush_uploads_palette exActivePalette rfl (by decide) (by decide)⟩

/-- C9: on the transition from inactive to active with device memory
mapped, the entire head area is first added to the damaged region and a
flush is performed: the flush sees the prior damage plus the full head
rectangle, its trace ends with a complete flush_area pass over the whole
head area (so the output covers the full head rectangle regardless of what
partial damage existed before), and afterwards the damage set is empty. -/
theorem activation_full_repaint (s : Backend) (_hinact : s.is_active = false)
    (hmap : s.mapped = true) :
    activate s = ply_renderer_head_redraw { s with is_active := true } ∧
    activate s = flush_head { s with is_active := true, damage := region_add_rectangle s.damage s.head_area } ∧
    (activate s).1.is_active = true ∧
    (activate s).1.damage = [] ∧
    (activate s).2 =
      baselineResetEvs ++ set_palette s.device_fd s.head ++
      ((flushRects s.device_fd s.row_stride s.head_area.width s.shadow s.head
          s.damage).2 ++
       (flush_area s.device_fd s.row_stride s.head_area.width s.shadow
          (flushRects s.device_fd s.row_stride s.head_area.width s.shadow
            s.head s.damage).1 s.head_area).2) := by
  have e1 : activate s = ply_renderer_head_redraw { s with is_active := true } := by
    unfold activate
    simp [hmap]
  have e2 : activate s = flush_head { s with is_active := true, damage := region_add_rectangle s.damage s.head_area } := by
    rw [e1]
    unfold ply_renderer_head_redraw
    rfl
  have hsplit := flushRects_append_last s.device_fd s.row_stride
    s.head_area.width s.shadow s.damage s.head s.head_area
  have e3 : (flush_head { s with is_active := true, damage := region_add_rectangle s.damage s.head_area }).1.is_active = true ∧
      (flush_head { s with is_active := true, damage := region_add_rectangle s.damage s.head_area }).1.damage = [] ∧
      (flush_head { s with is_active := true, damage := region_add_rectangle s.damage s.head_area }).2 =
        baselineResetEvs ++ set_palette s.device_fd s.head ++
        ((flushRects s.device_fd s.row_stride s.head_area.width s.shadow
            s.head s.damage).2 ++
         (flush_area s.device_fd s.row_stride s.head_area.width s.shadow
            (flushRects s.device_fd s.row_stride s.head_area.width s.shadow
              s.head s.damage).1 s.head_area).2) := by
    unfold flush_head
    simp only [region_add_rectangle, region_clear]
    simp only [hsplit]
    simp
  refine ⟨e1, e2, ?_, ?_, ?_⟩
  · rw [e2]; exact e3.1
  · rw [e2]; exact e3.2.1
  · rw [e2]; exact e3.2.2

/-- C9 (witness): a concrete inactive, mapped backend with partial prior
damage. -/
theorem activation_full_repaint_witness :
    exPreActivation.is_active = false ∧
    exPreActivation.mapped = true ∧
    ((activate exPreActivation).1.is_active = true ∧
     (activate exPreActivation).1.damage = []) :=
  ⟨rfl, rfl,
   (activation_full_repaint exPreActivation rfl rfl).2.2.1,
   (activation_full_repaint exPreActivation rfl rfl).2.2.2.1⟩

/-! ### Lemmas about the emission loops -/

theorem emitBytes_eq_flatMap (mask : Nat → Nat) (stride y c : Nat) :
    ∀ n b, emitBytes mask stride y c b n =
      (List.range' b n).flatMap (pairOps mask stride y c) := by
  intro n
  induction n with
  | zero => intro b; rfl
  | succ n ih =>
      intro b
      rw [List.range'_succ]
      simp only [List.flatMap_cons]
      rw [← ih (b + 1)]
      simp [emitBytes, pairOps]

theorem emitPlanes_eq_flatMap (mask : Nat → Nat) (stride y x1 x2 : Nat) :
    ∀ n c, emitPlanes mask stride y x1 x2 c n =
      (List.range' c n).flatMap (fun c2 =>
        (List.range' (x1 / 8) (x2 / 8 + 1 - x1 / 8)).flatMap
          (pairOps mask stride y c2)) := by
  intro n
  induction n with
  | zero => intro c; rfl
  | succ n ih =>
      intro c
      rw [List.range'_succ]
      simp only [List.flatMap_cons]
      rw [← ih (c + 1)]
      simp only [emitPlanes]
      rw [emitBytes_eq_flatMap]

theorem emitRow_eq_flatMap (mask : Nat → Nat) (stride y x1 x2 : Nat) :
    emitRow mask stride y x1 x2 =
      (List.range 16).flatMap (fun c2 =>
        (List.range' (x1 / 8) (x2 / 8 + 1 - x1 / 8)).flatMap
          (pairOps mask stride y c2)) := by
  unfold emitRow
  rw [List.range_eq_range']
  exact emitPlanes_eq_flatMap mask stride y x1 x2 16 0

/-! ### Claim about the register write protocol -/

/-- C5: the emission trace of a row is exactly the concatenation, over all
16 planes in increasing order and for each plane over the byte range
x1 / 8 .. x2 / 8 in increasing order, of the per-pair operations: nothing
when the mask byte is zero, and otherwise exactly vga_set_reset of the
slot, then vga_bit_mask of that mask byte, then one store at row offset
plus byte offset; the store ORs 1 into the device byte, so the stored
byte is nonzero. -/
theorem flush_pair_protocol (mask : Nat → Nat) (stride y x1 x2 c b : Nat)
    (hc : c < 16) (hb1 : x1 / 8 ≤ b) (hb2 : b ≤ x2 / 8) :
    emitRow mask stride y x1 x2 =
      (List.range 16).flatMap (fun c2 =>
        (List.range' (x1 / 8) (x2 / 8 + 1 - x1 / 8)).flatMap
          (pairOps mask stride y c2)) ∧
    (mask (c * stride + b) = 0 → pairOps mask stride y c b = []) ∧
    (mask (c * stride + b) ≠ 0 →
      pairOps mask stride y c b =
        [Ev.vgaSetReset c, Ev.vgaBitMask (mask (c * stride + b)),
         Ev.storeOr1 (y * stride + b)] ∧
      ∃ pre post, emitRow mask stride y x1 x2 =
        pre ++ [Ev.vgaSetReset c, Ev.vgaBitMask (mask (c * stride + b)),
                Ev.storeOr1 (y * stride + b)] ++ post) ∧
    (∀ mem off, applyEv mem (Ev.storeOr1 off) off = mem off ||| 1 ∧
      applyEv mem (Ev.storeOr1 off) off ≠ 0) := by
  have hrow := emitRow_eq_flatMap mask stride y x1 x2
  refine ⟨hrow, ?_, ?_, ?_⟩
  · intro hz
    simp [pairOps, hz]
  · intro hnz
    have hpair : pairOps mask stride y c b =
        [Ev.vgaSetReset c, Ev.vgaBitMask (mask (c * stride + b)),
         Ev.storeOr1 (y * stride + b)] := by
      simp [pairOps, hnz]
    refine ⟨hpair, ?_⟩
    have hcmem : c ∈ List.range 16 := List.mem_range.mpr hc
    obtain ⟨p1, p2, hp⟩ := List.append_of_mem hcmem
    have hbmem : b ∈ List.range' (x1 / 8) (x2 / 8 + 1 - x1 / 8) := by
      rw [List.mem_range'_1]
      omega
    obtain ⟨q1, q2, hq⟩ := List.append_of_mem hbmem
    refine ⟨(p1.flatMap (fun c2 =>
        (List.range' (x1 / 8) (x2 / 8 + 1 - x1 / 8)).flatMap
          (pairOps mask stride y c2))) ++
        q1.flatMap (pairOps mask stride y c),
      (q2.flatMap (pairOps mask stride y c)) ++
        (p2.flatMap (fun c2 =>
          (List.range' (x1 / 8) (x2 / 8 + 1 - x1 / 8)).flatMap
            (pairOps mask stride y c2))), ?_⟩
    rw [hrow, hp]
    rw [List.flatMap_append, List.flatMap_cons]
    rw [hq, List.flatMap_append, List.flatMap_cons]
    rw [hpair]
    simp [List.append_assoc]
  · intro mem off
    have happ : applyEv mem (Ev.storeOr1 off) off = mem off ||| 1 := by
      simp [applyEv]
    refine ⟨happ, ?_⟩
    rw [happ]
    intro hzero
    have hbit : (mem off ||| 1).testBit 0 = true := by
      rw [Nat.testBit_or]
      simp
    rw [hzero] at hbit
    simp [Nat.zero_testBit] at hbit

/-- C5 (witness): a concrete all-ones mask over one byte column. -/
theorem flush_pair_protocol_witness :
    (0 : Nat) < 16 ∧ (0 : Nat) / 8 ≤ 0 ∧ (0 : Nat) ≤ 8 / 8 ∧
    (emitRow (fun _ => 255) 1 0 0 8 =
      (List.range 16).flatMap (fun c2 =>
        (List.range' (0 / 8) (8 / 8 + 1 - 0 / 8)).flatMap
          (pairOps (fun _ => 255) 1 0 c2)) ∧
    ((fun _ => 255 : Nat → Nat) (0 * 1 + 0) = 0 →
      pairOps (fun _ => 255) 1 0 0 0 = []) ∧
    ((fun _ => 255 : Nat → Nat) (0 * 1 + 0) ≠ 0 →
      pairOps (fun _ => 255) 1 0 0 0 =
        [Ev.vgaSetReset 0, Ev.vgaBitMask ((fun _ => 255 : Nat → Nat) (0 * 1 + 0)),
         Ev.storeOr1 (0 * 1 + 0)] ∧
      ∃ pre post, emitRow (fun _ => 255) 1 0 0 8 =
        pre ++ [Ev.vgaSetReset 0, Ev.vgaBitMask ((fun _ => 255 : Nat → Nat) (0 * 1 + 0)),
                Ev.storeOr1 (0 * 1 + 0)] ++ post) ∧
    (∀ mem off, applyEv mem (Ev.storeOr1 off) off = mem off ||| 1 ∧
      applyEv mem (Ev.storeOr1 off) off ≠ 0)) :=
  ⟨by decide, by decide, by decide,
   flush_pair_protocol (fun _ => 255) 1 0 0 8 0 0 (by decide) (by decide)
     (by decide)⟩

/-! ### Lemmas about the planar mask builder -/

theorem plane_byte_offset_inj {s a b a2 b2 : Nat} (hb : b < s) (hb2 : b2 < s) :
    a * s + b = a2 * s + b2 ↔ a = a2 ∧ b = b2 := by
  have key : ∀ a3 b3 : Nat, b3 < s → (a3 * s + b3) % s = b3 := by
    intro a3 b3 hb3
    rw [Nat.add_comm, Nat.add_mul_mod_self_right, Nat.mod_eq_of_lt hb3]
  constructor
  · intro heq
    have hbb : b = b2 := by
      have hmods := congrArg (· % s) heq
      simpa [key a b hb, key a2 b2 hb2] using hmods
    subst hbb
    have hs : 0 < s := Nat.lt_of_le_of_lt (Nat.zero_le b) hb
    have hmul : a * s = a2 * s := by omega
    exact ⟨Nat.eq_of_mul_eq_mul_right hs hmul, rfl⟩
  · rintro ⟨rfl, rfl⟩
    rfl

theorem testBit_maskBit {r j : Nat} (hr : r < 8) :
    ((0x80 >>> r).testBit j = true) ↔ j = 7 - r := by
  have h : (0x80 >>> r) = 2 ^ (7 - r) := by
    interval_cases r <;> rfl
  rw [h, Nat.testBit_two_pow]
  simp [eq_comm]

theorem buildRow_head_wf (fd : Int) (stride width y : Nat) (shadow : List Nat)
    (h0 : Head) (x1 : Nat) (hwf : h0.wf) :
    ∀ n, (buildRow fd stride width y shadow h0 x1 n).1.wf := by
  intro n
  induction n with
  | zero => exact hwf
  | succ n ih =>
      have hstep : (buildRow fd stride width y shadow h0 x1 (n + 1)).1 =
          (argb32_pixel_value_to_color_index fd
            (buildRow fd stride width y shadow h0 x1 n).1
            (shadow.getD (x1 + n + y * width) 0)).2.1 := rfl
      rw [hstep]
      exact classify_wf fd _ _ ih

theorem buildRow_mask_lt (fd : Int) (stride width y : Nat) (shadow : List Nat)
    (h0 : Head) (x1 : Nat) :
    ∀ n o, (buildRow fd stride width y shadow h0 x1 n).2.1 o < 256 := by
  intro n
  induction n with
  | zero => intro o; simp [buildRow]
  | succ n ih =>
      intro o
      have hstep : (buildRow fd stride width y shadow h0 x1 (n + 1)).2.1 o =
          if o = (argb32_pixel_value_to_color_index fd
              (buildRow fd stride width y shadow h0 x1 n).1
              (shadow.getD (x1 + n + y * width) 0)).1 * stride + (x1 + n) / 8
          then (buildRow fd stride width y shadow h0 x1 n).2.1 o |||
            (0x80 >>> ((x1 + n) % 8))
          else (buildRow fd stride width y shadow h0 x1 n).2.1 o := rfl
      rw [hstep]
      split_ifs
      · have h1 : (buildRow fd stride width y shadow h0 x1 n).2.1 o < 2 ^ 8 :=
          ih o
        have h2 : (0x80 >>> ((x1 + n) % 8)) < 2 ^ 8 := by
          have hle : (0x80 >>> ((x1 + n) % 8)) ≤ 0x80 := by
            rw [Nat.shiftRight_eq_div_pow]
            exact Nat.div_le_self _ _
          omega
        have := Nat.or_lt_two_pow h1 h2
        omega
      · exact ih o

theorem buildRow_mask_spec (fd : Int) (stride width y : Nat)
    (shadow : List Nat) (h0 : Head) (x1 : Nat) (hwf : h0.wf) :
    ∀ n, x1 + n ≤ 8 * stride → ∀ c b j, c < 16 → b < stride → j < 8 →
      (((buildRow fd stride width y shadow h0 x1 n).2.1
          (c * stride + b)).testBit j = true ↔
        (x1 ≤ 8 * b + (7 - j) ∧ 8 * b + (7 - j) < x1 + n ∧
          idxAt fd stride width y shadow h0 x1 (8 * b + (7 - j)) = c)) := by
  intro n
  induction n with
  | zero =>
      intro hn c b j hc hb hj
      simp only [buildRow, Nat.zero_testBit]
      constructor
      · intro hfalse
        exact absurd hfalse (by simp)
      · rintro ⟨h1, h2, _⟩
        omega
  | succ n ih =>
      intro hn c b j hc hb hj
      have hn' : x1 + n ≤ 8 * stride := by omega
      have hwfn : (buildRow fd stride width y shadow h0 x1 n).1.wf :=
        buildRow_head_wf fd stride width y shadow h0 x1 hwf n
      set rix := (argb32_pixel_value_to_color_index fd
        (buildRow fd stride width y shadow h0 x1 n).1
        (shadow.getD (x1 + n + y * width) 0)).1 with hrix
      have hidx16 : rix < 16 := by
        have h2 := classify_index_lt fd
          (buildRow fd stride width y shadow h0 x1 n).1
          (shadow.getD (x1 + n + y * width) 0) hwfn
        omega
      have hdiv : (x1 + n) / 8 < stride := by omega
      have hmod : (x1 + n) % 8 < 8 := by omega
      have hidxAt : idxAt fd stride width y shadow h0 x1 (x1 + n) = rix := by
        rw [hrix]
        unfold idxAt headAt
        rw [Nat.add_sub_cancel_left]
      have hstep : (buildRow fd stride width y shadow h0 x1 (n + 1)).2.1
          (c * stride + b) =
          if c * stride + b = rix * stride + (x1 + n) / 8
          then (buildRow fd stride width y shadow h0 x1 n).2.1
            (c * stride + b) ||| (0x80 >>> ((x1 + n) % 8))
          else (buildRow fd stride width y shadow h0 x1 n).2.1
            (c * stride + b) := rfl
      rw [hstep]
      by_cases heq : c * stride + b = rix * stride + (x1 + n) / 8
      · obtain ⟨hceq, hbeq⟩ := (plane_byte_offset_inj hb hdiv).mp heq
        rw [if_pos heq, Nat.testBit_or, Bool.or_eq_true,
          ih hn' c b j hc hb hj]
        constructor
        · rintro (⟨hA, hB, hC⟩ | hD)
          · exact ⟨hA, by omega, hC⟩
          · have hj7 : j = 7 - (x1 + n) % 8 := (testBit_maskBit hmod).mp hD
            have hX : 8 * b + (7 - j) = x1 + n := by omega
            refine ⟨by omega, by omega, ?_⟩
            rw [hX, hidxAt, ← hceq]
        · rintro ⟨hA, hB, hC⟩
          by_cases hXn : 8 * b + (7 - j) = x1 + n
          · right
            apply (testBit_maskBit hmod).mpr
            omega
          · left
            exact ⟨hA, by omega, hC⟩
      · rw [if_neg heq, ih hn' c b j hc hb hj]
        constructor
        · rintro ⟨hA, hB, hC⟩
          exact ⟨hA, by omega, hC⟩
        · rintro ⟨hA, hB, hC⟩
          refine ⟨hA, ?_, hC⟩
          by_cases hXn : 8 * b + (7 - j) = x1 + n
          · exfalso
            apply heq
            have hbeq : b = (x1 + n) / 8 := by omega
            rw [hXn] at hC
            rw [hidxAt] at hC
            rw [hbeq, ← hC]
          · omega

/-! ### Claim about the planar mask builder -/

/-- C4: for a rectangle row with x range x1 to x2 (exclusive), the mask
built by flush_area has, for every plane c, byte offset b and bit j, bit j
of byte c * row_stride + b set exactly when the horizontal position
x = 8 * b + (7 - j) lies in the x range and the pixel at (x, y) classifies
to slot c at its point in the left-to-right scan (the set bit is
0x80 >> (x % 8) of byte x / 8); a plane to which no pixel of the row
classifies has all mask bytes zero (the buffer starts memset to zero), and
a zero mask byte contributes no operations, hence no device write. -/
theorem flush_mask_correct (fd : Int) (stride width y : Nat)
    (shadow : List Nat) (h0 : Head) (x1 x2 : Nat) (hwf : h0.wf)
    (hx1 : x1 ≤ x2) (hx2 : x2 ≤ 8 * stride) (c b j : Nat)
    (hc : c < 16) (hb : b < stride) (hj : j < 8) :
    (((buildRow fd stride width y shadow h0 x1 (x2 - x1)).2.1
        (c * stride + b)).testBit j = true ↔
      (x1 ≤ 8 * b + (7 - j) ∧ 8 * b + (7 - j) < x2 ∧
        idxAt fd stride width y shadow h0 x1 (8 * b + (7 - j)) = c)) ∧
    ((∀ x, x1 ≤ x → x < x2 → idxAt fd stride width y shadow h0 x1 x ≠ c) →
      (buildRow fd stride width y shadow h0 x1 (x2 - x1)).2.1
        (c * stride + b) = 0) ∧
    ((buildRow fd stride width y shadow h0 x1 (x2 - x1)).2.1
        (c * stride + b) = 0 →
      pairOps (buildRow fd stride width y shadow h0 x1 (x2 - x1)).2.1
        stride y c b = []) := by
  have hn : x1 + (x2 - x1) ≤ 8 * stride := by omega
  have hx : x1 + (x2 - x1) = x2 := by omega
  have hmain := buildRow_mask_spec fd stride width y shadow h0 x1 hwf
    (x2 - x1) hn c b j hc hb hj
  rw [hx] at hmain
  refine ⟨hmain, ?_, ?_⟩
  · intro hnone
    apply Nat.eq_of_testBit_eq
    intro i
    rw [Nat.zero_testBit]
    by_cases hi : i < 8
    · have hspec := buildRow_mask_spec fd stride width y shadow h0 x1 hwf
        (x2 - x1) hn c b i hc hb hi
      rw [hx] at hspec
      cases htb : ((buildRow fd stride width y shadow h0 x1 (x2 - x1)).2.1
          (c * stride + b)).testBit i with
      | false => rfl
      | true =>
          obtain ⟨h1, h2, h3⟩ := hspec.mp htb
          exact absurd h3 (hnone _ h1 h2)
    · have hlt : (buildRow fd stride width y shadow h0 x1 (x2 - x1)).2.1
          (c * stride + b) < 2 ^ i := by
        have h256 := buildRow_mask_lt fd stride width y shadow h0 x1
          (x2 - x1) (c * stride + b)
        have hpow : (2 : Nat) ^ 8 ≤ 2 ^ i := Nat.pow_le_pow_right (by omega)
          (by omega)
        omega
      exact Nat.testBit_lt_two_pow hlt
  · intro hz
    simp [pairOps, hz]

/-- C4 (witness): a one-row, eight-pixel solid-color rectangle on a fresh
head, at plane 0, byte 0, bit 0. -/
theorem flush_mask_correct_witness :
    init_head.wf ∧ (0 : Nat) ≤ 8 ∧ (8 : Nat) ≤ 8 * 1 ∧ (0 : Nat) < 16 ∧
    (0 : Nat) < 1 ∧ (0 : Nat) < 8 ∧
    ((((buildRow 0 1 8 0 (List.replicate 8 0xFF0000) init_head 0 (8 - 0)).2.1
        (0 * 1 + 0)).testBit 0 = true ↔
      (0 ≤ 8 * 0 + (7 - 0) ∧ 8 * 0 + (7 - 0) < 8 ∧
        idxAt 0 1 8 0 (List.replicate 8 0xFF0000) init_head 0
          (8 * 0 + (7 - 0)) = 0)) ∧
    ((∀ x, 0 ≤ x → x < 8 →
        idxAt 0 1 8 0 (List.replicate 8 0xFF0000) init_head 0 x ≠ 0) →
      (buildRow 0 1 8 0 (List.replicate 8 0xFF0000) init_head 0 (8 - 0)).2.1
        (0 * 1 + 0) = 0) ∧
    ((buildRow 0 1 8 0 (List.replicate 8 0xFF0000) init_head 0 (8 - 0)).2.1
        (0 * 1 + 0) = 0 →
      pairOps (buildRow 0 1 8 0 (List.replicate 8 0xFF0000) init_head 0
        (8 - 0)).2.1 1 0 0 0 = [])) :=
  ⟨by decide, by decide, by decide, by decide, by decide, by decide,
   flush_mask_correct 0 1 8 0 (List.replicate 8 0xFF0000) init_head 0 8
     (by decide) (by decide) (by decide) 0 0 0 (by decide) (by decide)
     (by decide)⟩

end Vga16fb
